/-
Verification of the versioned-configuration engine and CLI helpers of the
fluence `cli` repository (TypeScript).  The development shallowly embeds:

  * `src/lib/setupEnvironment.ts` — `resolveEnvVariable` and the module-level
    initialization of `process.env.FLUENCE_ENV`;
  * `src/lib/init.ts` (first part) — the `init` project-scaffolding function,
    in particular its non-empty-directory guard;
  * `src/lib/configs/project/service.ts` (second part of `init.ts`) — the
    service config kind: `configSchemaV0`, `moduleSchemaForService`,
    `migrations`, the semantic `validate`, `getInitConfigOptions`,
    `initServiceConfig`, `ensureServiceConfig` and the `getDefault` template
    generator;
  * the generic config loader/committer (`initConfig.ts`), which is not part
    of the provided sources; it is modelled from the specification, and every
    such definition is marked `Modelled from the spec:`.

Config documents are parsed YAML values, embedded as the JSON-like `Value`
type below (YAML parsing itself is performed by an external library; the
declarative `ajv` JSON schemas are embedded as executable validators that
implement exactly the constraints the schema objects declare).
-/
import Mathlib

set_option autoImplicit false

/-- A parsed configuration document: the JSON-like data model produced by the
external YAML parser and consumed by the `ajv` schema validators. -/
inductive Value where
  | null : Value
  | bool (b : Bool) : Value
  | num (n : Int) : Value
  | str (s : String) : Value
  | arr (elems : List Value) : Value
  | obj (fields : List (String × Value)) : Value

namespace Value

/-- Field lookup on an object document (first occurrence wins, as in parsed
YAML/JSON maps); `none` on non-objects and missing keys. -/
def getField : Value → String → Option Value
  | .obj fields, k => fields.lookup k
  | _, _ => none

/-- Replace the field `k` (first occurrence) of an object document, appending
it when absent; non-objects are returned unchanged. -/
def setField : Value → String → Value → Value
  | .obj fields, k, v => .obj (go fields k v)
  | other, _, _ => other
where
  go : List (String × Value) → String → Value → List (String × Value)
    | [], k, v => [(k, v)]
    | (k', v') :: rest, k, v =>
      if k' = k then (k, v) :: rest else (k', v') :: go rest k v

end Value

/-! ## `src/lib/setupEnvironment.ts` -/

/-- The constant `FLUENCE_ENV` from `setupEnvironment.ts`. -/
def FLUENCE_ENV : String := "FLUENCE_ENV"

/-- Embeds `resolveEnvVariable` from `src/lib/setupEnvironment.ts`.  The
environment is passed explicitly: `env` is `process.env[variableName]`
(`none` when the variable is unset).  The TypeScript function is generic in
the narrowed type `T`; at its only use site `T` is a string subtype, so the
embedding works with `String` and a boolean validity predicate.  A thrown
`Error` is embedded as `Except.error` carrying the message string. -/
def resolveEnvVariable (env : Option String) (variableName : String)
    (isValid : String → Bool) (defaultVariable : String) :
    Except String String :=
  match env with
  | none => .ok defaultVariable
  | some variable_ =>
    if isValid variable_ then
      .ok variable_
    else
      .error ("Invalid environment variable: " ++ variableName ++ "=\"" ++
        variable_ ++ "\"")

/-- Embeds the module-level statement
`process.env[FLUENCE_ENV] = resolveEnvVariable(FLUENCE_ENV, (v) => NETWORKS.some((n) => n === v) || v === "local", "kras")`
from `setupEnvironment.ts`.  `NETWORKS` is declared in `multiaddr.ts` (not
among the provided sources), so it is passed as a parameter; the validity
predicate is exactly the one at the call site. -/
def setupFluenceEnv (NETWORKS : List String) (env : Option String) :
    Except String String :=
  resolveEnvVariable env FLUENCE_ENV
    (fun v => NETWORKS.any (fun n => n = v) || v = "local") "kras"

/-! ## `src/lib/init.ts` — the `init` function (non-empty directory guard) -/

/-- The slice of file-system state that `init`'s guard inspects for the
resolved project path: `existsSync(projectPath)`,
`(await stat(projectPath)).isDirectory()` and
`(await readdir(projectPath)).length`. -/
structure InitFsState where
  pathExists : Bool
  isDirectory : Bool
  dirEntries : Nat
deriving DecidableEq, Repr

/-- Outcome of `init`: either `commandObj.error` with its message (which
aborts the command before any file-system write), or success together with
the ordered trace of write effects performed after the guard. -/
inductive InitResult where
  | error (message : String) : InitResult
  | success (writes : List String) : InitResult
deriving DecidableEq, Repr

/-- Embeds `init` from `src/lib/init.ts` for an already-resolved
`projectPath` and template.  `color.yellow` is terminal styling and is
dropped from the embedded message.  Every file-system effect after the
guard is recorded, in source order, as a named entry of the write trace:
`mkdir`, the empty services.aqua write, `initNewFluenceConfig` (which
creates the project config file), the template-specific writes done by
`initTSorJSProject`, the VS Code extensions file, the aqua-imports settings,
the gitignore, `initNewWorkersConfig` and `ensureAquaFileWithWorkerInfo`. -/
def init (fs : InitFsState) (projectPath : String) (template : String) :
    InitResult :=
  if fs.pathExists && fs.isDirectory && decide (0 < fs.dirEntries) then
    .error ("Directory " ++ projectPath ++
      " is not empty. Please, init in an empty directory.")
  else
    .success
      (["mkdir " ++ projectPath,
        "writeFile services.aqua",
        "initNewFluenceConfig"] ++
      (if template = "js" then
        ["writeFile package.json", "writeFile index.js",
         "fluenceConfig.$commit"]
      else if template = "ts" then
        ["writeFile package.json", "writeFile index.ts",
         "writeFile tsconfig.json", "fluenceConfig.$commit"]
      else []) ++
      ["writeFile extensions.json",
       "ensureAquaImports settings.json",
       "writeFile .gitignore",
       "initNewWorkersConfig",
       "ensureAquaFileWithWorkerInfo"])

/-! ## Validation results -/

/-- Result of a validity check that in TypeScript has type `true | string`
(`ConfigValidateFunction`, `validateAquaName`): either valid, or an error
message string. -/
inductive ValidateResult where
  | valid : ValidateResult
  | invalid (message : String) : ValidateResult
deriving DecidableEq, Repr

/-- Modelled from the spec: `validateAquaName` lives in
`src/lib/helpers/downloadFile.ts`, which is not among the provided sources.
The spec describes it as the name-format rule of the service kind's semantic
check: a valid Aqua name starts with a lowercase letter and continues with
letters, digits or underscores (so `"svc1"` is accepted and `"Bad Name!"` is
rejected); on failure it returns a message string citing the offending
name. -/
def validateAquaName (text : String) : ValidateResult :=
  match text.data with
  | [] => .invalid (text ++
      " must start with a lowercase letter and contain only letters, numbers and underscores")
  | c :: rest =>
    if c.isLower && rest.all (fun d => d.isAlpha || d.isDigit || d == '_') then
      .valid
    else
      .invalid (text ++
        " must start with a lowercase letter and contain only letters, numbers and underscores")

/-! ## The generic config loader/committer (`initConfig.ts`, not in src/) -/

/-- On-disk content of a config file: either a document the external YAML
parser accepts, or malformed text it rejects. -/
inductive FileContent where
  | malformed (raw : String) : FileContent
  | doc (v : Value) : FileContent

/-- The file-system state the engine reads and writes: a map from resolved
file paths to file contents (`none` = file absent). -/
def FS : Type := String → Option FileContent

/-- Overwrite (or create) the file at `path` with document `v`. -/
def FS.write (fs : FS) (path : String) (v : Value) : FS :=
  fun p => if p = path then some (.doc v) else fs p

/-- The error kinds of the engine, as classified by the spec (§7): `NotFound`,
`ParseError`, `VersionMismatch`, `SchemaValidationError` and
`SemanticValidationError`; each carries the file path, and schema errors
carry (instance path, message) pairs as produced by ajv. -/
inductive ConfigError where
  | notFound (path : String) : ConfigError
  | parseError (path : String) : ConfigError
  | versionMismatch (path : String) (declared : Option Int) (latest : Int) :
      ConfigError
  | schemaValidationError (path : String) (errors : List (String × String)) :
      ConfigError
  | semanticValidationError (path : String) (message : String) : ConfigError
deriving DecidableEq, Repr

/-- Embeds `InitConfigOptions` from `initConfig.ts` (the kind descriptor that
`getInitConfigOptions` of each config kind produces): the ordered schema
registry (each declarative ajv schema embedded as its validation function,
version = index in the list), the latest schema, the migration chain, the
canonical file name, the resolved config path, and the optional per-kind
semantic validator. -/
structure InitConfigOptions where
  allSchemas : List (Value → List (String × String))
  latestSchema : Value → List (String × String)
  migrations : List (Value → Value)
  name : String
  getConfigOrConfigDirPath : String
  validate : Option (Value → ValidateResult)

/-- The latest known schema version of a kind: the highest index of
`allSchemas` (version = position in the ordered registry). -/
def InitConfigOptions.latestVersion (options : InitConfigOptions) : Int :=
  (options.allSchemas.length : Int) - 1

/-- The declared version of a document: its embedded integer `version` field,
the sole authority for schema/migration selection (spec §6). -/
def declaredVersion (v : Value) : Option Int :=
  match v.getField "version" with
  | some (.num n) => some n
  | _ => none

/-- Modelled from the spec: the migration driver of `initConfig.ts` (not in
src/) applies the chain in strict ascending order starting from the
document's declared version — migration `k` maps a version-`k` document to
version `k+1` — until the latest version is reached; a document already at
latest has no migration applied (detected by version equality). -/
def applyMigrationsFrom (migrations : List (Value → Value))
    (fromVersion : Nat) (v : Value) : Value :=
  (migrations.drop fromVersion).foldl (fun acc m => m acc) v

/-- Modelled from the spec: the parse→version→migrate→validate pipeline of
`getConfigInitFunction` (`initConfig.ts`, not in src/), after the file's
document `v` has been obtained.  Steps, in order (§4.5): read the declared
version; if it has no schema in the registry, fail with `VersionMismatch`;
run the migration chain up to latest; run structural schema validation; then
and only then run the optional semantic validator. -/
def loadParsedConfig (options : InitConfigOptions) (fs : FS) (v : Value) :
    Except ConfigError (Value × FS) :=
  let path := options.getConfigOrConfigDirPath
  match declaredVersion v with
  | none => .error (.versionMismatch path none options.latestVersion)
  | some ver =>
    if 0 ≤ ver ∧ ver < (options.allSchemas.length : Int) then
      let migrated := applyMigrationsFrom options.migrations ver.toNat v
      let errors := options.latestSchema migrated
      if errors = [] then
        match options.validate with
        | none => .ok (migrated, fs)
        | some validate_ =>
          match validate_ migrated with
          | .valid => .ok (migrated, fs)
          | .invalid message => .error (.semanticValidationError path message)
      else
        .error (.schemaValidationError path errors)
    else
      .error (.versionMismatch path (some ver) options.latestVersion)

/-- Modelled from the spec: `getConfigInitFunction` / the shared loader of
`initConfig.ts` (not in src/).  Resolve the file at the kind's path; if
absent and a default generator exists, write the generated template and
proceed to parse it, otherwise fail with `NotFound`; if the content is
malformed, fail with `ParseError`; then run the version/migrate/validate
pipeline.  On success the validated latest-version value is returned with
the (possibly template-extended) file system. -/
def loadConfig (options : InitConfigOptions)
    (maybeGetDefault : Option (Unit → Value)) (fs : FS) :
    Except ConfigError (Value × FS) :=
  let path := options.getConfigOrConfigDirPath
  match fs path with
  | none =>
    match maybeGetDefault with
    | none => .error (.notFound path)
    | some getDefault =>
      let v := getDefault ()
      loadParsedConfig options (FS.write fs path v) v
  | some (.malformed _) => .error (.parseError path)
  | some (.doc v) => loadParsedConfig options fs v

/-- Modelled from the spec: the `$commit` operation of a mutable handle
(`initConfig.ts`, not in src/): re-serialize the current in-memory value
with its embedded version forced to the latest known version, and overwrite
the same file path; commit is the only write path. -/
def commitConfig (options : InitConfigOptions) (value : Value) (fs : FS) :
    FS :=
  FS.write fs options.getConfigOrConfigDirPath
    (value.setField "version" (.num options.latestVersion))

/-! ## `src/lib/configs/project/service.ts` (second part of `init.ts`) -/

namespace ServiceConfig

/-- Embeds `FACADE_MODULE_NAME` from `service.ts`. -/
def FACADE_MODULE_NAME : String := "facade"

/-- Modelled from the spec: `SERVICE_CONFIG_FILE_NAME` is declared in
`const.ts` (not in src/); it is the canonical file name of the service
config kind. -/
def SERVICE_CONFIG_FILE_NAME : String := "service"

/-- Is an object a map whose values are all strings? (Used for the
string-valued map properties of the module schema.) -/
def isStringMap : List (String × Value) → Bool
  | [] => true
  | (_, .str _) :: rest => isStringMap rest
  | _ => false

/-- One property check of `moduleSchemaForService`: `get` must be a string
(required-ness is checked by the caller); the overridable module properties
are modelled from the spec (they are declared in `module.ts`, not in src/,
and documented in the generated template): `envs`, `mountedBinaries` and
`volumes` are maps of strings, `loggerEnabled` is a boolean, `loggingMask`
is a number, `maxHeapSize` is a string; any other key violates
`additionalProperties: false`. -/
def checkModuleProperty (path k : String) (v : Value) :
    List (String × String) :=
  if k = "get" then
    match v with
    | .str _ => []
    | _ => [(path ++ "/get", "must be string")]
  else if k = "envs" || k = "mountedBinaries" || k = "volumes" then
    match v with
    | .obj fields =>
      if isStringMap fields then [] else
        [(path ++ "/" ++ k, "must be a map of strings")]
    | _ => [(path ++ "/" ++ k, "must be object")]
  else if k = "loggerEnabled" then
    match v with
    | .bool _ => []
    | _ => [(path ++ "/loggerEnabled", "must be boolean")]
  else if k = "loggingMask" then
    match v with
    | .num _ => []
    | _ => [(path ++ "/loggingMask", "must be number")]
  else if k = "maxHeapSize" then
    match v with
    | .str _ => []
    | _ => [(path ++ "/maxHeapSize", "must be string")]
  else
    [(path ++ "/" ++ k, "must NOT have additional properties")]

/-- Embeds `moduleSchemaForService` from `service.ts` as its ajv validation
semantics (ajv itself is an external library): an object with required
string property `get`, the optional overridable module properties, and
`additionalProperties: false`.  `path` is the instance path of the module
within the document. -/
def moduleSchemaForService (path : String) (v : Value) :
    List (String × String) :=
  match v with
  | .obj fields =>
    (if (fields.lookup "get").isSome then [] else
      [(path, "must have required property get")]) ++
    fields.flatMap (fun kv => checkModuleProperty path kv.1 kv.2)
  | _ => [(path, "must be object")]

/-- One property check of `configSchemaV0`: `name` must be a string;
`modules` must be an object with required property `facade`
(`FACADE_MODULE_NAME`), each entry validating against
`moduleSchemaForService`; `totalMemoryLimit` (the overridable service
property, `{type: "string", pattern: BYTES_PATTERN, nullable: true}`) must
be `null` or a string matching `BYTES_PATTERN` — the regex constant
`BYTES_PATTERN` is declared in `const.ts` (not in src/), so the predicate
it denotes on strings is threaded as the `bytesPattern` parameter;
`version` is `{type: "number", const: 0}`; any other key violates
`additionalProperties: false`. -/
def checkConfigV0Property (bytesPattern : String → Bool) (k : String)
    (v : Value) : List (String × String) :=
  if k = "name" then
    match v with
    | .str _ => []
    | _ => [("name", "must be string")]
  else if k = "modules" then
    match v with
    | .obj mfields =>
      (if (mfields.lookup FACADE_MODULE_NAME).isSome then [] else
        [("modules", "must have required property " ++ FACADE_MODULE_NAME)]) ++
      mfields.flatMap (fun kv =>
        moduleSchemaForService ("modules/" ++ kv.1) kv.2)
    | _ => [("modules", "must be object")]
  else if k = "totalMemoryLimit" then
    match v with
    | .null => []
    | .str memStr =>
      if bytesPattern memStr then [] else
        [("totalMemoryLimit", "must match the bytes pattern")]
    | _ => [("totalMemoryLimit", "must be string")]
  else if k = "version" then
    match v with
    | .num n =>
      if n = 0 then [] else [("version", "must be equal to constant 0")]
    | _ => [("version", "must be equal to constant 0")]
  else
    [(k, "must NOT have additional properties")]

/-- Embeds `configSchemaV0` from `service.ts` as its ajv validation
semantics: an object with required properties `version`, `name` and
`modules`, the property constraints of `checkConfigV0Property`, and
`additionalProperties: false`.  An empty error list means the document
validates.  `bytesPattern` stands for the `BYTES_PATTERN` constant of the
absent `const.ts` (see `checkConfigV0Property`); theorems quantify over it,
so they hold whatever the real pattern is. -/
def configSchemaV0 (bytesPattern : String → Bool) (v : Value) :
    List (String × String) :=
  match v with
  | .obj fields =>
    (["version", "name", "modules"].flatMap (fun r =>
      if (fields.lookup r).isSome then [] else
        [("", "must have required property " ++ r)])) ++
    fields.flatMap (fun kv => checkConfigV0Property bytesPattern kv.1 kv.2)
  | _ => [("", "must be object")]

/-- Embeds `migrations` from `service.ts`: the service kind has an empty
migration chain. -/
def migrations : List (Value → Value) := []

/-- Embeds `validate` from `service.ts` (the service kind's
`ConfigValidateFunction`): check `config.name` with `validateAquaName`;
return `true` when valid, otherwise the string
`"Invalid service name: " ++ validity`.  The TypeScript function receives
the already schema-validated typed config, so `config.name` is its string
`name` field; the embedding reads that field from the document (defaulting
to the empty string in the unreachable case that it is absent). -/
def validate (config : Value) : ValidateResult :=
  let name := match config.getField "name" with
    | some (.str s) => s
    | _ => ""
  match validateAquaName name with
  | .valid => .valid
  | .invalid validity => .invalid ("Invalid service name: " ++ validity)

/-- Embeds `getInitConfigOptions` from `service.ts`: the service kind
descriptor — a single-schema registry `[configSchemaV0]`, latest schema
`configSchemaV0`, the empty `migrations`, the canonical name, the
caller-supplied config path, and the semantic `validate`.  The
`bytesPattern` parameter threads the `BYTES_PATTERN` constant of the absent
`const.ts` into the schema. -/
def getInitConfigOptions (bytesPattern : String → Bool)
    (configDirPath : String) : InitConfigOptions :=
  { allSchemas := [configSchemaV0 bytesPattern]
    latestSchema := configSchemaV0 bytesPattern
    migrations := migrations
    name := SERVICE_CONFIG_FILE_NAME
    getConfigOrConfigDirPath := configDirPath
    validate := some validate }

/-- Embeds `initServiceConfig` from `service.ts`: run the loader with no
default generator on the resolved path.  (`ensureServiceAbsolutePath` is an
external location resolver per spec §6 and is modelled as the identity on
an already-resolved local path.)  Modelled from the spec: the loader
returned by `getConfigInitFunction` yields `null` — here `none` — exactly
when the file is absent and no default generator is available
(`NotFound`). -/
def initServiceConfig (bytesPattern : String → Bool)
    (configOrConfigDirPathOrUrl : String) (fs : FS) :
    Except ConfigError (Option Value × FS) :=
  match loadConfig (getInitConfigOptions bytesPattern
      configOrConfigDirPathOrUrl) none fs with
  | .error (.notFound _) => .ok (none, fs)
  | .error e => .error e
  | .ok (c, fs') => .ok (some c, fs')

/-- Renders a loader error as the user-facing message that aborts the
command (spec §7: every error is reported as a descriptive message naming
the file path). -/
def configErrorMessage : ConfigError → String
  | .notFound path => "Config file not found at " ++ path
  | .parseError path => "Config file at " ++ path ++ " is not well-formed"
  | .versionMismatch path _ _ =>
    "Config file at " ++ path ++ " has an unknown version"
  | .schemaValidationError path _ =>
    "Config file at " ++ path ++ " does not conform to its schema"
  | .semanticValidationError path message =>
    "Config file at " ++ path ++ ": " ++ message

/-- Embeds `ensureServiceConfig` from `service.ts`: resolve the service path
through the optional fluence-config `services` map, call
`initServiceConfig`, and report `commandObj.error` with the message
`"No service config found at <path>"` when it returns `null`
(`color.yellow` styling dropped).  Other loader errors propagate (as their
rendered messages). -/
def ensureServiceConfig (bytesPattern : String → Bool)
    (nameOrPathOrUrl : String)
    (maybeFluenceConfigServices : Option (List (String × String)))
    (fs : FS) : Except String Value :=
  let maybeServicePathFromFluenceConfig :=
    match maybeFluenceConfigServices with
    | some services => services.lookup nameOrPathOrUrl
    | none => none
  let serviceOrServiceDirPathOrUrl :=
    maybeServicePathFromFluenceConfig.getD nameOrPathOrUrl
  match initServiceConfig bytesPattern serviceOrServiceDirPathOrUrl fs with
  | .error e => .error (configErrorMessage e)
  | .ok (none, _) =>
    .error ("No service config found at " ++ serviceOrServiceDirPathOrUrl)
  | .ok (some c, _) => .ok c

/-- Modelled from the spec: `MAX_HEAP_SIZE_DESCRIPTION` is declared in
`const.ts` (not in src/); it is interpolated into a commented-out line of the
default template, so only its being a one-line description matters here. -/
def MAX_HEAP_SIZE_DESCRIPTION : String :=
  "Max size of the heap that a module can allocate in format: [number][whitespace?][specificator?]"

/-- Embeds the template text of `getDefault` from `service.ts` as its list of
lines (the template literal joined back with `String.intercalate "\n"` in
`getDefault` below); the two interpolations `${name}` and
`${relativePathToFacade}` are the function's arguments, and
`${MAX_HEAP_SIZE_DESCRIPTION}` sits inside a YAML comment line. -/
def getDefaultLines (relativePathToFacade name : String) : List String :=
  ["# Defines a [Marine service](https://fluence.dev/docs/build/concepts/#services),",
   "# most importantly the modules that the service consists of.",
   "# You can use `fluence service new` command to generate a template for new service",
   "",
   "# config version",
   "version: 0",
   "",
   "# Service name.",
   "# Currently it is used for the service name only when you add service to fluence.yaml using \"add\" command.",
   "# But this name can be overridden to any other with the --name flag or manually in fluence.yaml",
   "name: " ++ name,
   "",
   "# A map of modules that the service consists of.",
   "# Service must have a facade module. Each module properties can be overridden",
   "modules:",
   "  facade:",
   "    # Either path to the module directory or",
   "    # URL to the tar.gz archive which contains the content of the module directory",
   "    get: '" ++ relativePathToFacade ++ "'",
   "",
   "    # You can override module configuration here:",
   "",
   "#     # environment variables accessible by a particular module",
   "#     # with standard Rust env API like this: std::env::var(IPFS_ADDR_ENV_NAME)",
   "#     # Module environment variables could be examined with repl",
   "#     envs:",
   "#       ENV_VARIABLE: \"env variable string value\"",
   "#",
   "#     # Set true to allow module to use the Marine SDK logger",
   "#     loggerEnabled: true",
   "#",
   "#     # manages the logging targets, described in detail: https://fluence.dev/docs/marine-book/marine-rust-sdk/developing/logging#using-target-map",
   "#     loggingMask: 1",
   "#",
   "#     # " ++ MAX_HEAP_SIZE_DESCRIPTION,
   "#     maxHeapSize: 1KiB",
   "#",
   "#     # A map of binary executable files that module is allowed to call",
   "#     mountedBinaries:",
   "#       curl: \"/usr/bin/curl\"",
   "#",
   "#     # A map of accessible files and their aliases.",
   "#     # Aliases should be used in Marine module development because it's hard to know the full path to a file",
   "#     volumes:",
   "#       alias: \"some/alias/path\"",
   ""]

/-- Embeds `getDefault` from `service.ts`: given the relative facade path and
the service name it returns the `GetDefaultConfig` thunk producing the
template text. -/
def getDefault (relativePathToFacade name : String) : Unit → String :=
  fun _ =>
    String.intercalate "\n" (getDefaultLines relativePathToFacade name)

end ServiceConfig

/-! ## A YAML-subset reader for the generated template

The CLI hands generated template text to an external YAML parser.  To check
the generator's self-consistency we embed the fragment of YAML the template
uses: maps of `key: scalar` / `key:`-plus-indented-block lines, `#` comment
lines (at any indentation) and blank lines, two-space indentation steps,
unquoted and single-quoted scalars, and decimal integer scalars.  The reader
works line by line (on `Char` lists) exactly as the template is written. -/

namespace Yaml

/-- Indentation of a line: the number of leading spaces. -/
def lineIndent (l : List Char) : Nat :=
  (l.takeWhile (fun c => c == ' ')).length

/-- Content of a line: the line with its indentation removed. -/
def lineContent (l : List Char) : List Char :=
  l.dropWhile (fun c => c == ' ')

/-- Is the line blank or a `#` comment line? -/
def isSkippable (l : List Char) : Bool :=
  match lineContent l with
  | [] => true
  | c :: _ => c == '#'

/-- Split a line's content at its first colon into key and remainder. -/
def splitAtColon : List Char → Option (List Char × List Char)
  | [] => none
  | c :: rest =>
    if c == ':' then some ([], rest)
    else
      match splitAtColon rest with
      | some (k, r) => some (c :: k, r)
      | none => none

/-- Numeric value of a list of decimal digits. -/
def digitsToNat (l : List Char) : Nat :=
  l.foldl (fun acc c => acc * 10 + (c.toNat - Char.toNat '0')) 0

/-- Parse a scalar: single-quoted string, decimal integer, or plain string. -/
def parseScalar (v : List Char) : Value :=
  match v with
  | [] => .null
  | c :: rest =>
    if c == '\'' && rest.getLast? == some '\'' then
      .str (String.mk rest.dropLast)
    else if (c :: rest).all Char.isDigit then
      .num (digitsToNat (c :: rest))
    else
      .str (String.mk (c :: rest))

/-- Parse the entries of a block mapping at indentation `ind`, fuelled;
returns the parsed fields and the lines following the block (the first
non-skippable line with smaller indentation ends the block). -/
def parseMap : Nat → Nat → List (List Char) →
    Option (List (String × Value) × List (List Char))
  | 0, _, _ => none
  | _ + 1, _, [] => some ([], [])
  | fuel + 1, ind, l :: ls =>
    if isSkippable l then parseMap fuel ind ls
    else if lineIndent l < ind then some ([], l :: ls)
    else if lineIndent l == ind then
      match splitAtColon (lineContent l) with
      | none => none
      | some (k, rest) =>
        match rest with
        | [] =>
          match parseMap fuel (ind + 2) ls with
          | none => none
          | some (sub, ls') =>
            match parseMap fuel ind ls' with
            | none => none
            | some (fields, ls'') =>
              some ((String.mk k, Value.obj sub) :: fields, ls'')
        | ' ' :: vchars =>
          match parseMap fuel ind ls with
          | none => none
          | some (fields, ls') =>
            some ((String.mk k, parseScalar vchars) :: fields, ls')
        | _ => none
    else none

/-- Parse a whole document (a top-level block mapping over the given lines);
fails unless every line is consumed. -/
def parseDocument (lines : List String) : Option Value :=
  let ls := lines.map String.data
  match parseMap (3 * ls.length + 3) 0 ls with
  | some (fields, []) => some (.obj fields)
  | _ => none

end Yaml

/-! ## Helper lemmas -/

theorem lookup_congr_mem {β : Type} (k : String) (l : List (String × β))
    (v : β) (h : l.lookup k = some v) : (k, v) ∈ l := by
  induction l with
  | nil => simp [List.lookup] at h
  | cons kv rest ih =>
    rw [List.lookup] at h
    by_cases hk : k == kv.1
    · rw [hk] at h
      cases h
      have hk' : k = kv.1 := by simpa using hk
      cases kv
      simp_all
    · rw [Bool.not_eq_true] at hk
      rw [hk] at h
      exact List.mem_cons_of_mem _ (ih h)

theorem flatMap_eq_nil_forall {α β : Type} (l : List α) (f : α → List β)
    (h : l.flatMap f = []) : ∀ x ∈ l, f x = [] := by
  induction l with
  | nil => simp
  | cons a l ih =>
    rw [List.flatMap_cons, List.append_eq_nil] at h
    intro x hx
    cases hx with
    | head => exact h.1
    | tail _ hmem => exact ih h.2 x hmem

theorem lookup_setField_go (fields : List (String × Value)) (k : String)
    (x : Value) : (Value.setField.go fields k x).lookup k = some x := by
  induction fields with
  | nil => simp [Value.setField.go, List.lookup]
  | cons kv rest ih =>
    cases kv with
    | mk k' v' =>
      by_cases h : k' = k
      · simp [Value.setField.go, h, List.lookup]
      · have hbe : (k == k') = false := by
          simp
          exact fun he => h he.symm
        simp [Value.setField.go, h, List.lookup, hbe, ih]

/-- Setting a field of an object makes that field readable back. -/
theorem getField_setField_self (fields : List (String × Value)) (k : String)
    (x : Value) : ((Value.obj fields).setField k x).getField k = some x := by
  simp [Value.setField, Value.getField, lookup_setField_go]

/-- A document that validates against the version-0 service schema is an
object. -/
theorem configSchemaV0_obj (bytesPattern : String → Bool) (v : Value)
    (h : ServiceConfig.configSchemaV0 bytesPattern v = []) :
    ∃ fields, v = .obj fields := by
  cases v with
  | obj fields => exact ⟨fields, rfl⟩
  | null => simp [ServiceConfig.configSchemaV0] at h
  | bool b => simp [ServiceConfig.configSchemaV0] at h
  | num n => simp [ServiceConfig.configSchemaV0] at h
  | str s => simp [ServiceConfig.configSchemaV0] at h
  | arr elems => simp [ServiceConfig.configSchemaV0] at h

/-- Inversion for the `version` property check of the version-0 service
schema: only the constant `0` passes. -/
theorem checkConfigV0Property_version_inv (bytesPattern : String → Bool)
    (v : Value)
    (h : ServiceConfig.checkConfigV0Property bytesPattern "version" v = []) :
    v = .num 0 := by
  cases v with
  | num n =>
    by_cases hn : n = 0
    · rw [hn]
    · exfalso
      simp [ServiceConfig.checkConfigV0Property, hn] at h
  | null => simp [ServiceConfig.checkConfigV0Property] at h
  | bool b => simp [ServiceConfig.checkConfigV0Property] at h
  | str s => simp [ServiceConfig.checkConfigV0Property] at h
  | arr elems => simp [ServiceConfig.checkConfigV0Property] at h
  | obj fields => simp [ServiceConfig.checkConfigV0Property] at h

/-- A document valid against the version-0 service schema contains a
`version` field whose entries are all `0`. -/
theorem configSchemaV0_version_fields (bytesPattern : String → Bool)
    (fields : List (String × Value))
    (h : ServiceConfig.configSchemaV0 bytesPattern (.obj fields) = []) :
    (fields.lookup "version").isSome = true ∧
      ∀ kv ∈ fields, kv.1 = "version" → kv.2 = Value.num 0 := by
  rw [ServiceConfig.configSchemaV0] at h
  rw [List.append_eq_nil] at h
  obtain ⟨hreq, hprops⟩ := h
  constructor
  · have := flatMap_eq_nil_forall _ _ hreq "version" (by simp)
    revert this
    split <;> simp_all
  · intro kv hkv hk
    have := flatMap_eq_nil_forall _ _ hprops kv hkv
    rw [hk] at this
    exact checkConfigV0Property_version_inv bytesPattern kv.2 this

theorem setField_go_version_noop (fields : List (String × Value))
    (hsome : (fields.lookup "version").isSome = true)
    (hall : ∀ kv ∈ fields, kv.1 = "version" → kv.2 = Value.num 0) :
    Value.setField.go fields "version" (.num 0) = fields := by
  induction fields with
  | nil => simp [List.lookup] at hsome
  | cons kv rest ih =>
    by_cases h : kv.1 = "version"
    · have hv := hall kv (by simp) h
      cases kv
      simp_all [Value.setField.go]
    · cases kv with
      | mk k' v' =>
        have hbe : ("version" == k') = false := by
          simp
          exact fun he => h he.symm
        rw [List.lookup, hbe] at hsome
        have hrest : ∀ kv ∈ rest, kv.1 = "version" → kv.2 = Value.num 0 :=
          fun kv hkv => hall kv (List.mem_cons_of_mem _ hkv)
        simp [Value.setField.go, h, ih hsome hrest]

/-- Re-forcing `version` to `0` on a document that already validates against
the version-0 service schema is the identity. -/
theorem setField_version_noop (bytesPattern : String → Bool)
    (fields : List (String × Value))
    (h : ServiceConfig.configSchemaV0 bytesPattern (.obj fields) = []) :
    (Value.obj fields).setField "version" (.num 0) = .obj fields := by
  obtain ⟨hsome, hall⟩ := configSchemaV0_version_fields bytesPattern fields h
  simp [Value.setField, setField_go_version_noop fields hsome hall]

/-- A document valid against the version-0 service schema declares
version `0`. -/
theorem declaredVersion_of_configSchemaV0 (bytesPattern : String → Bool)
    (fields : List (String × Value))
    (h : ServiceConfig.configSchemaV0 bytesPattern (.obj fields) = []) :
    declaredVersion (.obj fields) = some 0 := by
  obtain ⟨hsome, hall⟩ := configSchemaV0_version_fields bytesPattern fields h
  rw [Option.isSome_iff_exists] at hsome
  obtain ⟨v, hv⟩ := hsome
  have hmem := lookup_congr_mem _ _ _ hv
  have := hall ("version", v) hmem rfl
  simp at this
  subst this
  simp [declaredVersion, Value.getField, hv]

/-- Inversion of a successful load with no default generator: the returned
value passes the latest schema and the file system is unchanged (nothing is
written). -/
theorem loadConfig_ok_inv (options : InitConfigOptions) (fs : FS) (c : Value)
    (fs' : FS) (h : loadConfig options none fs = .ok (c, fs')) :
    options.latestSchema c = [] ∧ fs' = fs := by
  simp only [loadConfig, loadParsedConfig] at h
  split at h
  · simp at h
  · simp at h
  · split at h
    · simp at h
    · split at h
      · split at h
        · split at h
          · cases h
            constructor
            · assumption
            · rfl
          · split at h
            · cases h
              constructor
              · assumption
              · rfl
            · simp at h
        · simp at h
      · simp at h

/-! ## Claim theorems -/

/-- C10: `resolveEnvVariable` returns the default exactly when the variable
is unset, returns the variable's value when the validity predicate accepts
it, and throws an error naming the variable and its value exactly when it is
set but invalid; consequently, whenever the module initialization of
`process.env.FLUENCE_ENV` succeeds, the resulting value is a known network
name, `"local"`, or the default `"kras"`. -/
theorem c10_resolveEnvVariable_cases (NETWORKS : List String) :
    (∀ (name default_ : String) (isValid : String → Bool),
      resolveEnvVariable none name isValid default_ = .ok default_) ∧
    (∀ (v name default_ : String) (isValid : String → Bool),
      isValid v = true →
      resolveEnvVariable (some v) name isValid default_ = .ok v) ∧
    (∀ (v name default_ : String) (isValid : String → Bool),
      isValid v = false →
      resolveEnvVariable (some v) name isValid default_ =
        .error ("Invalid environment variable: " ++ name ++ "=\"" ++ v ++
          "\"")) ∧
    (∀ (env : Option String) (r : String),
      setupFluenceEnv NETWORKS env = .ok r →
      r ∈ NETWORKS ∨ r = "local" ∨ r = "kras") := by
  refine ⟨fun name default_ isValid => rfl, ?_, ?_, ?_⟩
  · intro v name default_ isValid hvalid
    simp [resolveEnvVariable, hvalid]
  · intro v name default_ isValid hinvalid
    simp [resolveEnvVariable, hinvalid]
  · intro env r h
    cases env with
    | none =>
      right; right
      simpa [setupFluenceEnv, resolveEnvVariable] using h.symm
    | some v =>
      rw [setupFluenceEnv, resolveEnvVariable] at h
      split at h
      · cases h
        rename_i hcond
        rw [Bool.or_eq_true] at hcond
        cases hcond with
        | inl hany =>
          left
          rw [List.any_eq_true] at hany
          obtain ⟨x, hx, hxr⟩ := hany
          simp at hxr
          rwa [← hxr]
        | inr hloc =>
          right; left
          simpa using hloc
      · cases h

/-- Witness for C10 at a concrete environment: with one known network
`"stage"`, a set variable `"local"` resolves to itself, which is indeed in
the allowed set. -/
theorem c10_witness :
    "local" ∈ (["stage"] : List String) ∨ "local" = "local" ∨
      "local" = "kras" :=
  (c10_resolveEnvVariable_cases ["stage"]).2.2.2 (some "local") "local" rfl

/-- C9: when the resolved project path exists, is a directory and has at
least one entry, `init` fails with an error naming the directory and
performs no write (the write trace is empty because the command aborts in
the guard, which precedes every write). -/
theorem c9_init_nonempty_dir_guard (fs : InitFsState)
    (projectPath template : String) (hex : fs.pathExists = true)
    (hdir : fs.isDirectory = true) (hne : 0 < fs.dirEntries) :
    init fs projectPath template =
      .error ("Directory " ++ projectPath ++
        " is not empty. Please, init in an empty directory.") ∧
    ∀ writes, init fs projectPath template ≠ .success writes := by
  have hguard :
      (fs.pathExists && fs.isDirectory && decide (0 < fs.dirEntries)) =
        true := by
    simp [hex, hdir, hne]
  constructor
  · rw [init, if_pos hguard]
  · intro writes hcontra
    rw [init, if_pos hguard] at hcontra
    exact InitResult.noConfusion hcontra

/-- Witness for C9: a non-empty existing directory. -/
theorem c9_witness :
    init ⟨true, true, 3⟩ "/proj" "minimal" =
      .error
        "Directory /proj is not empty. Please, init in an empty directory." ∧
    ∀ writes, init ⟨true, true, 3⟩ "/proj" "minimal" ≠ .success writes :=
  c9_init_nonempty_dir_guard ⟨true, true, 3⟩ "/proj" "minimal" rfl rfl
    (by decide)

/-- C6: the service kind's migration chain is empty and its latest version is
`0`, so applying the migration chain to an already-latest document is a
no-op; in general, a document whose declared version is at least the length
of the migration chain (in particular one already at the latest version) has
no migration applied: the output equals the input. -/
theorem c6_migrations_noop :
    ServiceConfig.migrations = [] ∧
    (∀ bytesPattern : String → Bool,
      (ServiceConfig.getInitConfigOptions bytesPattern "p").latestVersion =
        0) ∧
    (∀ (ms : List (Value → Value)) (ver : Nat) (v : Value),
      ms.length ≤ ver → applyMigrationsFrom ms ver v = v) ∧
    (∀ (ver : Nat) (v : Value),
      applyMigrationsFrom ServiceConfig.migrations ver v = v) := by
  refine ⟨rfl, fun _ => rfl, ?_, ?_⟩
  · intro ms ver v hle
    rw [applyMigrationsFrom, List.drop_eq_nil_of_le hle, List.foldl_nil]
  · intro ver v
    rw [applyMigrationsFrom]
    simp [ServiceConfig.migrations]

/-- Witness for C6: the no-op conjunct applied to a concrete one-element
migration chain at its latest version. -/
theorem c6_witness :
    applyMigrationsFrom [fun _ => Value.null] 1 (Value.num 7) =
      Value.num 7 :=
  c6_migrations_noop.2.2.1 [fun _ => Value.null] 1 (Value.num 7)
    (by decide)

/-- C8: a commit never writes a document whose embedded `version` differs
from the latest known version of its kind: for any kind descriptor, the file
written by `commitConfig` for an in-memory object value carries the
descriptor's latest version, and for the service kind the latest version is
`0` (its only schema pins `version` with `const 0`). -/
theorem c8_commit_forces_latest_version :
    (∀ (options : InitConfigOptions) (fields : List (String × Value))
      (fs : FS),
      ∃ w, (commitConfig options (.obj fields) fs)
          options.getConfigOrConfigDirPath = some (.doc w) ∧
        declaredVersion w = some options.latestVersion) ∧
    ∀ (bytesPattern : String → Bool) (path : String),
      (ServiceConfig.getInitConfigOptions bytesPattern path).latestVersion =
        0 := by
  constructor
  · intro options fields fs
    refine ⟨(Value.obj fields).setField "version"
      (.num options.latestVersion), ?_, ?_⟩
    · simp [commitConfig, FS.write]
    · rw [declaredVersion, getField_setField_self]
  · intro bytesPattern path
    rfl

/-- C2: a service config document whose declared integer version exceeds the
latest known schema version (`0` — the registry holds only `configSchemaV0`)
fails to load with `VersionMismatch`, and never with a generic parse error:
the version check precedes (and preempts) every other failure mode. -/
theorem c2_version_exceeds_latest (bytesPattern : String → Bool)
    (path : String) (fs : FS) (d : Value)
    (ver : Int) (hfile : fs path = some (.doc d))
    (hver : declaredVersion d = some ver) (hgt : 0 < ver) :
    loadConfig (ServiceConfig.getInitConfigOptions bytesPattern path) none
        fs =
      .error (.versionMismatch path (some ver) 0) := by
  have hcond : ¬(0 ≤ ver ∧ ver < (1 : Int)) := by omega
  simp [loadConfig, loadParsedConfig, ServiceConfig.getInitConfigOptions,
    hfile, hver, hcond, InitConfigOptions.latestVersion]

/-- Witness for C2: a document declaring version `5` against latest `0`. -/
theorem c2_witness :
    loadConfig (ServiceConfig.getInitConfigOptions (fun _ => true) "cfg")
      none
      (fun p => if p = "cfg" then
        some (.doc (.obj [("version", .num 5)])) else none) =
      .error (.versionMismatch "cfg" (some 5) 0) :=
  c2_version_exceeds_latest (fun _ => true) "cfg" _ _ 5 rfl rfl (by decide)

/-- C7: opening a service config with no default-template generator when no
file exists at the resolved path fails as not-found and writes nothing: the
loader fails with `NotFound`, `initServiceConfig` returns `null` together
with the unchanged file system (no file is created), and
`ensureServiceConfig` reports an error naming the path it looked at. -/
theorem c7_absent_no_default (bytesPattern : String → Bool) (path : String)
    (fs : FS) (hfile : fs path = none) :
    loadConfig (ServiceConfig.getInitConfigOptions bytesPattern path) none
        fs =
      .error (.notFound path) ∧
    ServiceConfig.initServiceConfig bytesPattern path fs = .ok (none, fs) ∧
    ServiceConfig.ensureServiceConfig bytesPattern path none fs =
      .error ("No service config found at " ++ path) := by
  have h1 : loadConfig (ServiceConfig.getInitConfigOptions bytesPattern path)
      none fs = .error (.notFound path) := by
    simp [loadConfig, ServiceConfig.getInitConfigOptions, hfile]
  refine ⟨h1, ?_, ?_⟩
  · rw [ServiceConfig.initServiceConfig, h1]
  · rw [ServiceConfig.ensureServiceConfig]
    simp [ServiceConfig.initServiceConfig, h1]

/-- Witness for C7: an empty file system. -/
theorem c7_witness :
    loadConfig (ServiceConfig.getInitConfigOptions (fun _ => true) "svc")
      none (fun _ => none) = .error (.notFound "svc") ∧
    ServiceConfig.initServiceConfig (fun _ => true) "svc" (fun _ => none) =
      .ok (none, fun _ => none) ∧
    ServiceConfig.ensureServiceConfig (fun _ => true) "svc" none
        (fun _ => none) =
      .error "No service config found at svc" :=
  c7_absent_no_default (fun _ => true) "svc" (fun _ => none) rfl

/-- C4: the service kind's semantic validator runs only after structural
validation passes (a structurally invalid document yields
`SchemaValidationError`, never a semantic error), and it returns exactly
`true` when `validateAquaName` accepts the document's `name` and otherwise a
string citing the invalid service name rather than throwing; in particular
`{version: 0, name: "svc1", modules: {facade: {get: "./mod"}}}` loads
successfully while the same document with name `"Bad Name!"` fails semantic
validation with a message citing the name. -/
theorem c4_semantic_validation (bytesPattern : String → Bool)
    (path : String) :
    (∀ (config : Value) (nm : String),
      config.getField "name" = some (.str nm) →
      (ServiceConfig.validate config = .valid ↔
        validateAquaName nm = .valid) ∧
      (∀ msg, validateAquaName nm = .invalid msg →
        ServiceConfig.validate config =
          .invalid ("Invalid service name: " ++ msg))) ∧
    (∀ (fs : FS) (d : Value), fs path = some (.doc d) →
      declaredVersion d = some 0 →
      ServiceConfig.configSchemaV0 bytesPattern d ≠ [] →
      loadConfig (ServiceConfig.getInitConfigOptions bytesPattern path) none
          fs =
        .error (.schemaValidationError path
          (ServiceConfig.configSchemaV0 bytesPattern d))) ∧
    (∀ fs : FS,
      fs path = some (.doc (.obj [("version", .num 0),
        ("name", .str "svc1"),
        ("modules", .obj [("facade", .obj [("get", .str "./mod")])])])) →
      loadConfig (ServiceConfig.getInitConfigOptions bytesPattern path) none
          fs =
        .ok (.obj [("version", .num 0), ("name", .str "svc1"),
          ("modules", .obj [("facade", .obj [("get", .str "./mod")])])],
          fs)) ∧
    (∀ fs : FS,
      fs path = some (.doc (.obj [("version", .num 0),
        ("name", .str "Bad Name!"),
        ("modules", .obj [("facade", .obj [("get", .str "./mod")])])])) →
      loadConfig (ServiceConfig.getInitConfigOptions bytesPattern path) none
          fs =
        .error (.semanticValidationError path
          ("Invalid service name: Bad Name!" ++
            " must start with a lowercase letter and contain only letters, numbers and underscores"))) := by
  refine ⟨?_, ?_, ?_, ?_⟩
  · intro config nm hname
    cases hv : validateAquaName nm with
    | valid =>
      refine ⟨by simp [ServiceConfig.validate, hname, hv], ?_⟩
      intro msg hmsg
      exact ValidateResult.noConfusion hmsg
    | invalid message =>
      refine ⟨by simp [ServiceConfig.validate, hname, hv], ?_⟩
      intro msg hmsg
      cases hmsg
      simp [ServiceConfig.validate, hname, hv]
  · intro fs d hfile hver hinvalid
    simp [loadConfig, loadParsedConfig, ServiceConfig.getInitConfigOptions,
      hfile, hver, applyMigrationsFrom, ServiceConfig.migrations, hinvalid]
  · intro fs hfile
    simp only [loadConfig, ServiceConfig.getInitConfigOptions, hfile]
    rfl
  · intro fs hfile
    simp only [loadConfig, ServiceConfig.getInitConfigOptions, hfile]
    rfl

/-- Witness for C4: the valid-name scenario document, loaded from a concrete
file system, together with the semantic validator's acceptance of its
name. -/
theorem c4_witness :
    (ServiceConfig.validate (.obj [("version", .num 0),
        ("name", .str "svc1"),
        ("modules", .obj [("facade", .obj [("get", .str "./mod")])])]) =
          .valid ↔
      validateAquaName "svc1" = .valid) ∧
    ∀ msg, validateAquaName "svc1" = .invalid msg →
      ServiceConfig.validate (.obj [("version", .num 0),
        ("name", .str "svc1"),
        ("modules", .obj [("facade", .obj [("get", .str "./mod")])])]) =
          .invalid ("Invalid service name: " ++ msg) :=
  (c4_semantic_validation (fun _ => true) "cfg").1
    (.obj [("version", .num 0), ("name", .str "svc1"),
      ("modules", .obj [("facade", .obj [("get", .str "./mod")])])])
    "svc1" rfl

theorem lookup_eq_none_not_mem {β : Type} (k : String)
    (l : List (String × β)) :
    l.lookup k = none → ∀ v, (k, v) ∉ l := by
  induction l with
  | nil =>
    intro h v hv
    cases hv
  | cons kv rest ih =>
    intro h v hv
    rw [List.lookup] at h
    cases hv with
    | head => simp at h
    | tail _ hmem =>
      by_cases hk : k == kv.1
      · rw [hk] at h
        exact Option.noConfusion h
      · rw [Bool.not_eq_true] at hk
        rw [hk] at h
        exact ih h v hmem

/-- C5: a service config document whose `modules` object lacks the `facade`
key fails structural validation against the version-0 schema with an error
citing the required-field violation at `modules`, and the loader reports it
as a `SchemaValidationError` carrying those errors. -/
theorem c5_missing_facade (bytesPattern : String → Bool) (path : String)
    (fs : FS) (fields mfields : List (String × Value))
    (hfile : fs path = some (.doc (.obj fields)))
    (hver : declaredVersion (.obj fields) = some 0)
    (hmod : fields.lookup "modules" = some (.obj mfields))
    (hfac : mfields.lookup ServiceConfig.FACADE_MODULE_NAME = none) :
    ("modules", "must have required property facade") ∈
      ServiceConfig.configSchemaV0 bytesPattern (.obj fields) ∧
    loadConfig (ServiceConfig.getInitConfigOptions bytesPattern path) none
        fs =
      .error (.schemaValidationError path
        (ServiceConfig.configSchemaV0 bytesPattern (.obj fields))) := by
  have hcheck : ("modules", "must have required property facade") ∈
      ServiceConfig.checkConfigV0Property bytesPattern "modules"
        (.obj mfields) := by
    simp [ServiceConfig.checkConfigV0Property,
      ServiceConfig.FACADE_MODULE_NAME, hfac]
    exact Or.inl (fun x => lookup_eq_none_not_mem _ _ hfac x)
  have hmem : ("modules", "must have required property facade") ∈
      ServiceConfig.configSchemaV0 bytesPattern (.obj fields) := by
    rw [ServiceConfig.configSchemaV0, List.mem_append]
    right
    exact List.mem_flatMap.mpr
      ⟨("modules", .obj mfields), lookup_congr_mem _ _ _ hmod, hcheck⟩
  have hne : ServiceConfig.configSchemaV0 bytesPattern (.obj fields) ≠ [] :=
    List.ne_nil_of_mem hmem
  refine ⟨hmem, ?_⟩
  simp [loadConfig, loadParsedConfig, ServiceConfig.getInitConfigOptions,
    hfile, hver, applyMigrationsFrom, ServiceConfig.migrations, hne]

/-- Witness for C5: a document whose modules map has only a non-facade
module. -/
theorem c5_witness :
    ("modules", "must have required property facade") ∈
      ServiceConfig.configSchemaV0 (fun _ => true) (.obj [("version", .num 0),
        ("name", .str "svc1"),
        ("modules", .obj [("other", .obj [("get", .str "./m")])])]) ∧
    loadConfig (ServiceConfig.getInitConfigOptions (fun _ => true) "cfg")
      none
      (fun p => if p = "cfg" then
        some (.doc (.obj [("version", .num 0), ("name", .str "svc1"),
          ("modules", .obj [("other", .obj [("get", .str "./m")])])]))
        else none) =
      .error (.schemaValidationError "cfg"
        (ServiceConfig.configSchemaV0 (fun _ => true)
          (.obj [("version", .num 0),
          ("name", .str "svc1"),
          ("modules", .obj [("other", .obj [("get", .str "./m")])])]))) :=
  c5_missing_facade (fun _ => true) "cfg" _
    [("version", .num 0), ("name", .str "svc1"),
      ("modules", .obj [("other", .obj [("get", .str "./m")])])]
    [("other", .obj [("get", .str "./m")])] rfl rfl rfl rfl

theorem lower_char_facts (c : Char) (hc : c.isLower = true) :
    (c == '\'') = false ∧ c.isDigit = false := by
  constructor
  · cases hbe : c == '\'' with
    | false => rfl
    | true =>
      have h : c = '\'' := eq_of_beq hbe
      subst h
      exact absurd hc (by decide)
  · cases hbd : c.isDigit with
    | false => rfl
    | true =>
      exfalso
      simp [Char.isLower] at hc
      simp [Char.isDigit] at hbd
      exact absurd (UInt32.le_trans hc.1 hbd.2) (by decide)

/-- The generated service template parses (in the embedded YAML subset) to
exactly the document `{version: 0, name, modules: {facade: {get}}}` — every
other template line is a comment or blank. -/
theorem parseDocument_getDefaultLines (p n : String) (c : Char)
    (rest : List Char) (hd : n.data = c :: rest) (hc : c.isLower = true) :
    Yaml.parseDocument (ServiceConfig.getDefaultLines p n) =
      some (Value.obj [("version", Value.num 0), ("name", Value.str n),
        ("modules",
          Value.obj [("facade", Value.obj [("get", Value.str p)])])]) := by
  obtain ⟨hq, hdig⟩ := lower_char_facts c hc
  have hdata : ∀ s t : String, (s ++ t).data = s.data ++ t.data :=
    fun _ _ => rfl
  have h1 : "name: ".data = ['n', 'a', 'm', 'e', ':', ' '] := rfl
  have h2 : "    get: '".data =
    [' ', ' ', ' ', ' ', 'g', 'e', 't', ':', ' ', '\''] := rfl
  have h3 : "'".data = ['\''] := rfl
  have hmk : String.mk (c :: rest) = n := by rw [← hd]
  have hmkp : String.mk p.data = p := rfl
  simp [Yaml.parseDocument, ServiceConfig.getDefaultLines, hdata, h1, h2, h3,
    hd, Yaml.parseMap, Yaml.isSkippable, Yaml.lineContent, Yaml.lineIndent,
    Yaml.splitAtColon, Yaml.parseScalar, hq, hdig, hmk, hmkp,
    List.getLast?_concat, List.dropLast_concat, Yaml.digitsToNat]

set_option linter.unusedVariables false in
/-- C3: for every facade path (that serializes cleanly into the
single-quoted, one-line YAML scalar of the template) and every valid service
name, the default template produced by the generator parses to a document
that validates against the version-0 service schema with no missing required
fields — it contains `version` equal to `0`, the name, and a modules map
with a `facade` entry carrying `get` — and also passes the kind's semantic
validation. -/
theorem c3_default_template_valid (bytesPattern : String → Bool)
    (relativePathToFacade name : String)
    (hname : validateAquaName name = .valid)
    (hquote : '\'' ∉ relativePathToFacade.data)
    (hnewline : '\n' ∉ relativePathToFacade.data) :
    Yaml.parseDocument
        (ServiceConfig.getDefaultLines relativePathToFacade name) =
      some (Value.obj [("version", Value.num 0), ("name", Value.str name),
        ("modules", Value.obj [(ServiceConfig.FACADE_MODULE_NAME,
          Value.obj [("get", Value.str relativePathToFacade)])])]) ∧
    ServiceConfig.configSchemaV0 bytesPattern
        (Value.obj [("version", Value.num 0), ("name", Value.str name),
          ("modules", Value.obj [(ServiceConfig.FACADE_MODULE_NAME,
            Value.obj [("get", Value.str relativePathToFacade)])])]) = [] ∧
    ServiceConfig.validate
        (Value.obj [("version", Value.num 0), ("name", Value.str name),
          ("modules", Value.obj [(ServiceConfig.FACADE_MODULE_NAME,
            Value.obj [("get", Value.str relativePathToFacade)])])]) =
      .valid := by
  have hname' := hname
  cases hdm : name.data with
  | nil =>
    unfold validateAquaName at hname
    rw [hdm] at hname
    simp at hname
  | cons c rest =>
    unfold validateAquaName at hname
    rw [hdm] at hname
    have hc : c.isLower = true := by
      by_contra hcf
      rw [Bool.not_eq_true] at hcf
      simp [hcf] at hname
    refine ⟨parseDocument_getDefaultLines relativePathToFacade name c rest
      hdm hc, ?_, ?_⟩
    · simp [ServiceConfig.configSchemaV0, ServiceConfig.checkConfigV0Property,
        ServiceConfig.moduleSchemaForService, ServiceConfig.checkModuleProperty,
        ServiceConfig.FACADE_MODULE_NAME, List.lookup]
    · simp [ServiceConfig.validate, Value.getField, List.lookup, hname']

/-- Witness for C3: the template generated for facade path `"./mod"` and
service name `"svc1"`. -/
theorem c3_witness :
    Yaml.parseDocument (ServiceConfig.getDefaultLines "./mod" "svc1") =
      some (Value.obj [("version", Value.num 0), ("name", Value.str "svc1"),
        ("modules", Value.obj [(ServiceConfig.FACADE_MODULE_NAME,
          Value.obj [("get", Value.str "./mod")])])]) ∧
    ServiceConfig.configSchemaV0 (fun _ => true)
        (Value.obj [("version", Value.num 0), ("name", Value.str "svc1"),
          ("modules", Value.obj [(ServiceConfig.FACADE_MODULE_NAME,
            Value.obj [("get", Value.str "./mod")])])]) = [] ∧
    ServiceConfig.validate
        (Value.obj [("version", Value.num 0), ("name", Value.str "svc1"),
          ("modules", Value.obj [(ServiceConfig.FACADE_MODULE_NAME,
            Value.obj [("get", Value.str "./mod")])])]) = .valid :=
  c3_default_template_valid (fun _ => true) "./mod" "svc1" rfl (by decide)
    (by decide)

/-- C1: open → mutate a field → commit → open again on the same path yields
the mutated value: if a service config loads successfully, a field of the
in-memory value is mutated, and the result still passes validation
(including the `BYTES_PATTERN` constraint, over which the theorem
quantifies), then committing and re-opening the same path succeeds and
observes exactly the committed value, whose mutated field equals the value
written. -/
theorem c1_open_mutate_commit_open (bytesPattern : String → Bool)
    (path field : String) (fs : FS)
    (c newVal : Value) (fs1 : FS)
    (hopen : loadConfig (ServiceConfig.getInitConfigOptions bytesPattern
      path) none fs = .ok (c, fs1))
    (hschema : ServiceConfig.configSchemaV0 bytesPattern
      (c.setField field newVal) = [])
    (hsem : ServiceConfig.validate (c.setField field newVal) = .valid) :
    loadConfig (ServiceConfig.getInitConfigOptions bytesPattern path) none
        (commitConfig (ServiceConfig.getInitConfigOptions bytesPattern path)
          (c.setField field newVal) fs) =
      .ok (c.setField field newVal,
        commitConfig (ServiceConfig.getInitConfigOptions bytesPattern path)
          (c.setField field newVal) fs) ∧
    (c.setField field newVal).getField field = some newVal := by
  obtain ⟨hval_c, hfs1⟩ := loadConfig_ok_inv _ _ _ _ hopen
  obtain ⟨cfields, rfl⟩ := configSchemaV0_obj bytesPattern c hval_c
  have hmobj : (Value.obj cfields).setField field newVal =
      Value.obj (Value.setField.go cfields field newVal) := rfl
  rw [hmobj] at hschema hsem ⊢
  have hnoop : (Value.obj (Value.setField.go cfields field newVal)).setField
      "version" (Value.num 0) =
      Value.obj (Value.setField.go cfields field newVal) :=
    setField_version_noop bytesPattern _ hschema
  have hver := declaredVersion_of_configSchemaV0 bytesPattern _ hschema
  have hcommit : commitConfig (ServiceConfig.getInitConfigOptions
      bytesPattern path)
      (Value.obj (Value.setField.go cfields field newVal)) fs =
      FS.write fs path
        ((Value.obj (Value.setField.go cfields field newVal)).setField
          "version" (Value.num 0)) := rfl
  rw [hcommit, hnoop]
  constructor
  · simp [loadConfig, loadParsedConfig, ServiceConfig.getInitConfigOptions,
      FS.write, hver, applyMigrationsFrom, ServiceConfig.migrations, hschema,
      hsem]
  · exact getField_setField_self cfields field newVal

/-- Witness for C1: a concrete service config whose `name` field is mutated
to `"newname"`, committed, and re-opened. -/
theorem c1_witness :
    loadConfig (ServiceConfig.getInitConfigOptions (fun _ => true) "cfg")
        none
        (commitConfig
          (ServiceConfig.getInitConfigOptions (fun _ => true) "cfg")
          ((Value.obj [("version", Value.num 0), ("name", Value.str "svc1"),
            ("modules", Value.obj [("facade",
              Value.obj [("get", Value.str "./mod")])])]).setField "name"
            (Value.str "newname"))
          (fun p => if p = "cfg" then
            some (.doc (Value.obj [("version", Value.num 0),
              ("name", Value.str "svc1"),
              ("modules", Value.obj [("facade",
                Value.obj [("get", Value.str "./mod")])])]))
            else none)) =
      .ok (((Value.obj [("version", Value.num 0), ("name", Value.str "svc1"),
          ("modules", Value.obj [("facade",
            Value.obj [("get", Value.str "./mod")])])]).setField "name"
          (Value.str "newname")),
        commitConfig (ServiceConfig.getInitConfigOptions (fun _ => true)
            "cfg")
          ((Value.obj [("version", Value.num 0), ("name", Value.str "svc1"),
            ("modules", Value.obj [("facade",
              Value.obj [("get", Value.str "./mod")])])]).setField "name"
            (Value.str "newname"))
          (fun p => if p = "cfg" then
            some (.doc (Value.obj [("version", Value.num 0),
              ("name", Value.str "svc1"),
              ("modules", Value.obj [("facade",
                Value.obj [("get", Value.str "./mod")])])]))
            else none)) ∧
    ((Value.obj [("version", Value.num 0), ("name", Value.str "svc1"),
        ("modules", Value.obj [("facade",
          Value.obj [("get", Value.str "./mod")])])]).setField "name"
        (Value.str "newname")).getField "name" =
      some (Value.str "newname") :=
  c1_open_mutate_commit_open (fun _ => true) "cfg" "name" _ _
    (Value.str "newname") _ (by rfl) (by rfl) (by rfl)
